import Mathlib

/-!
Shallow embedding of the dating-application domain model
(`project/models.py`, `project/utils.py`), the recommendation engine
(`project/engine.py`) and the in-memory store (`project/storage.py`).

Modelling conventions:
* Python floats are modelled as exact real numbers (`ℝ`); float literals in
  the source (`111.0`, `0.2`, `0.1`, ...) denote the corresponding exact
  real constants.  Numeric input data (latitude/longitude) is modelled as
  `ℚ` so that concrete stores and users remain decidable data.
* `uuid.UUID` keys are modelled as `ℕ`; freshness of `uuid4`-generated
  match ids is modelled by a counter `nextMatchId` carried by the store.
* Python dictionaries are modelled as insertion-ordered association lists
  (`List (ℕ × α)`): updating an existing key replaces the value in place,
  a new key is appended; iteration (`dict.values()`) is the list of values
  in order, which matches `dict` semantics.
* `random.random()` is modelled by an explicitly injected tie-breaker value
  `rand` (the engine itself multiplies it by `2.0`, as in the source);
  `compute_matches` takes a stream `rand : ℕ → ℝ`, one draw per `score`
  call, indexed by the position of the call.
* `datetime.date.today()` is modelled by an explicit `today : PDate`
  argument threaded to `age_from_birthdate`.
* Python truthiness is translated literally: `if b_age:` is false both for
  `None` and for the integer `0`; empty strings and lists are falsy, enum
  members are truthy.
* `list.sort(key=lambda x: x[0], reverse=True)` — a stable descending sort
  by score — is modelled by `List.insertionSort` with the relation
  "has at least the score of", which is stable and sorts descending, hence
  produces exactly the list Python's stable sort produces.
* Fields that no modelled operation reads (emails, password hashes,
  timestamps, photo ids) are omitted from the records; they do not occur in
  any code path of the functions embedded here.
-/

/-- Calendar date (`datetime.date`): plain integers, compared
lexicographically by (month, day) where the source does so. -/
structure PDate where
  year : Int
  month : Int
  day : Int
deriving DecidableEq

/-- `utils.age_from_birthdate`: `today.year - bd.year` minus 1 when
today's (month, day) precedes the birthdate's (Python tuple comparison). -/
def age_from_birthdate (today bd : PDate) : Int :=
  today.year - bd.year -
    (if today.month < bd.month ∨ (today.month = bd.month ∧ today.day < bd.day)
     then 1 else 0)

/-- `models.Gender` enumeration. -/
inductive Gender where
  | male
  | female
  | nonbinary
  | other
deriving DecidableEq

/-- `models.Location` (the `city`/`country` strings are never read by the
embedded operations and are omitted). -/
structure Location where
  lat : ℚ
  lon : ℚ
deriving DecidableEq

/-- `Location.distance_km_to`: equirectangular flat-earth approximation,
`sqrt(dx*dx + dy*dy)` with `dx = (lat1-lat2)*111.0`, `dy = (lon1-lon2)*111.0`. -/
noncomputable def Location.distance_km_to (a b : Location) : ℝ :=
  let dx : ℝ := ((a.lat : ℝ) - (b.lat : ℝ)) * 111
  let dy : ℝ := ((a.lon : ℝ) - (b.lon : ℝ)) * 111
  Real.sqrt (dx * dx + dy * dy)

/-- `models.Photo` (only presence in `Profile.photos` matters to the
embedded operations; `upload`/`delete` bookkeeping fields omitted). -/
structure Photo where
  url : String := ""
  order : Int := 0
deriving DecidableEq

/-- `models.Preferences`. -/
structure Preferences where
  gender_preference : List Gender := [Gender.female, Gender.male, Gender.nonbinary]
  age_min : Int := 18
  age_max : Int := 99
  max_distance_km : Int := 100
  interests : List String := []
deriving DecidableEq

/-- `Preferences.matches_age`: `age_min <= age <= age_max`. -/
def Preferences.matches_age (pref : Preferences) (age : Int) : Prop :=
  pref.age_min ≤ age ∧ age ≤ pref.age_max

instance (pref : Preferences) (age : Int) : Decidable (pref.matches_age age) :=
  inferInstanceAs (Decidable (pref.age_min ≤ age ∧ age ≤ pref.age_max))

/-- `models.Profile` (timestamps and the profile id are never read by the
embedded operations and are omitted). -/
structure Profile where
  display_name : String := ""
  birthdate : Option PDate := none
  gender : Option Gender := none
  bio : String := ""
  photos : List Photo := []
  location : Option Location := none
  preferences : Preferences := {}
deriving DecidableEq

/-- `Profile.complete_percentage`: count of the six present optional fields,
scaled to a 0–100 integer.  `int((score/total)*100)` truncates the float
`score/6*100` toward zero, which for the seven possible counts 0..6 yields
exactly the values of natural division `count*100/6` (0, 16, 33, 50, 66,
83, 100). -/
def Profile.complete_percentage (p : Profile) : ℕ :=
  ((if p.display_name ≠ "" then 1 else 0) +
   (if p.birthdate.isSome then 1 else 0) +
   (if p.gender.isSome then 1 else 0) +
   (if p.bio ≠ "" then 1 else 0) +
   (if p.photos ≠ [] then 1 else 0) +
   (if p.location.isSome then 1 else 0)) * 100 / 6

/-- `Profile.age`: `None` without a birthdate, otherwise
`age_from_birthdate` at the ambient current date. -/
def Profile.age (today : PDate) (p : Profile) : Option Int :=
  p.birthdate.map (age_from_birthdate today)

/-- `models.User` (email/password/timestamp fields are never read by the
embedded operations and are omitted; `user_id` models the UUID). -/
structure User where
  user_id : ℕ
  profile : Option Profile := none
deriving DecidableEq

/-- Gender term of `RecommendationEngine.score` (engine.py lines 28–31):
`+20.0` when the candidate's gender is set and preferred, else `-10.0`
(a missing gender is falsy, hence a mismatch). -/
noncomputable def genderTerm (pref : Preferences) (g : Option Gender) : ℝ :=
  match g with
  | some g => if g ∈ pref.gender_preference then 20 else -10
  | none => -10

/-- Age term of `RecommendationEngine.score` (engine.py lines 33–41).
`if b_age:` is Python truthiness: the term is skipped when the age is
`None` *or* the integer `0`.  The trailing `0` branch mirrors the absence
of an `else` after the `elif` chain. -/
noncomputable def ageTerm (pref : Preferences) (age : Option Int) : ℝ :=
  match age with
  | none => 0
  | some n =>
    if n = 0 then 0
    else if pref.matches_age n then 15
    else if n < pref.age_min then -(((pref.age_min : ℝ)) - (n : ℝ))
    else if pref.age_max < n then -((n : ℝ) - ((pref.age_max : ℝ)))
    else 0

/-- Interest term of `RecommendationEngine.score` (engine.py lines 43–44):
`5.0` per element of the set intersection of the two interest lists. -/
noncomputable def interestTerm (pref prefB : Preferences) : ℝ :=
  5 * ((pref.interests.toFinset ∩ prefB.interests.toFinset).card : ℝ)

/-- Completeness term of `RecommendationEngine.score` (engine.py line 46):
`0.1 * complete_percentage`. -/
noncomputable def completenessTerm (p : Profile) : ℝ :=
  0.1 * (p.complete_percentage : ℝ)

/-- Location term of `RecommendationEngine.score` (engine.py lines 48–53):
evaluated only when both users have a location; distance penalty beyond the
viewer's `max_distance_km`, proximity bonus within it.  `max(1, ...)` is
integer `max` in the source, computed before the float division. -/
noncomputable def locationTerm (pref : Preferences) :
    Option Location → Option Location → ℝ
  | some la, some lb =>
    let dist := la.distance_km_to lb
    if dist > (pref.max_distance_km : ℝ) then
      -((dist - (pref.max_distance_km : ℝ)) * 0.2)
    else
      (max 0 (((pref.max_distance_km : ℝ) - dist) / ((max 1 pref.max_distance_km : ℤ) : ℝ))) * 10
  | _, _ => 0

/-- `RecommendationEngine.score` (engine.py lines 21–56) with the current
date and the `random.random()` draw injected.  Returns the sentinel `-1.0`
when either user lacks a profile; otherwise the sum of the five heuristic
terms plus the tie-breaker `rand * 2.0`. -/
noncomputable def score (today : PDate) (rand : ℝ) (a b : User) : ℝ :=
  match a.profile, b.profile with
  | some pa, some pb =>
    genderTerm pa.preferences pb.gender
      + ageTerm pa.preferences (Profile.age today pb)
      + interestTerm pa.preferences pb.preferences
      + completenessTerm pb
      + locationTerm pa.preferences pa.location pb.location
      + rand * 2
  | _, _ => -1

/-- Descending-by-score order on scored candidates: `scoreGe x y` holds when
`x`'s score is at least `y`'s.  Sorting with it (stably) is exactly
`scored.sort(key=lambda x: x[0], reverse=True)`. -/
def scoreGe (x y : ℝ × User) : Prop := y.1 ≤ x.1

noncomputable instance : DecidableRel scoreGe :=
  fun x y => inferInstanceAs (Decidable (y.1 ≤ x.1))

instance : IsTotal (ℝ × User) scoreGe := ⟨fun x y => le_total y.1 x.1⟩

instance : IsTrans (ℝ × User) scoreGe := ⟨fun _ _ _ h1 h2 => le_trans h2 h1⟩

/-- The candidates retained by the loop of `compute_matches` (engine.py
lines 13–15): every candidate whose id differs from the viewer's, in order. -/
def eligibleCands (user : User) (cands : List User) : List User :=
  cands.filter (fun c => c.user_id != user.user_id)

/-- The `scored` list built by `compute_matches` (engine.py lines 12–17):
each retained candidate paired with its score; the `i`-th `score` call
consumes the `i`-th tie-breaker draw `rand i`. -/
noncomputable def scoredList (today : PDate) (rand : ℕ → ℝ) (user : User)
    (cands : List User) : List (ℝ × User) :=
  (eligibleCands user cands).enum.map (fun ic => (score today (rand ic.1) user ic.2, ic.2))

/-- Python list slicing `l[:k]` for an arbitrary (possibly negative) `k`:
a nonnegative bound takes the first `k` elements, a negative bound drops
the last `-k` elements. -/
def pySlice (l : List α) (k : ℤ) : List α :=
  if 0 ≤ k then l.take k.toNat else l.take ((l.length : ℤ) + k).toNat

/-- `RecommendationEngine.compute_matches` (engine.py lines 11–19): score
the candidates other than the viewer, sort stably by descending score,
slice to `top_k` (default 10) and drop the scores. -/
noncomputable def compute_matches (today : PDate) (rand : ℕ → ℝ) (user : User)
    (cands : List User) (top_k : ℤ := 10) : List User :=
  (pySlice (List.insertionSort scoreGe (scoredList today rand user cands)) top_k).map Prod.snd

/-- `models.Swipe` (the timestamp is never read and is omitted;
`direction` is the source's plain string, `"like"` or `"pass"`). -/
structure Swipe where
  swipe_id : ℕ
  from_user : User
  to_user : User
  direction : String := "pass"
deriving DecidableEq

/-- `models.Match` (creation time omitted; `match_id` models the
`uuid4`-generated key). -/
structure Match where
  match_id : ℕ
  user_a : User
  user_b : User
  is_active : Bool := true
deriving DecidableEq

/-- `Match.unmatch`: clear the active flag. -/
def Match.unmatch (m : Match) : Match := { m with is_active := false }

/-- Two matches concern the same unordered pair of user ids. -/
def Match.samePair (m1 m2 : Match) : Prop :=
  (m1.user_a.user_id = m2.user_a.user_id ∧ m1.user_b.user_id = m2.user_b.user_id) ∨
  (m1.user_a.user_id = m2.user_b.user_id ∧ m1.user_b.user_id = m2.user_a.user_id)

instance (m1 m2 : Match) : Decidable (m1.samePair m2) :=
  inferInstanceAs (Decidable (_ ∨ _))

/-- Insertion into an identifier-keyed Python `dict` modelled as an
insertion-ordered association list: an existing key keeps its position and
gets the new value, a fresh key is appended. -/
def insertA (l : List (ℕ × α)) (k : ℕ) (v : α) : List (ℕ × α) :=
  if l.any (fun p => p.1 == k) then
    l.map (fun p => if p.1 = k then (k, v) else p)
  else
    l ++ [(k, v)]

/-- `dict.values()` in insertion order. -/
def valuesA (l : List (ℕ × α)) : List α := l.map Prod.snd

/-- `storage.InMemoryDB` restricted to the tables the embedded operations
touch (swipes and matches); `nextMatchId` models the freshness of the
`uuid4` ids that `Match` generates for new matches. -/
structure InMemoryDB where
  swipes : List (ℕ × Swipe) := []
  /-- the source's `self.matches` (`matches` is unavailable as a field name) -/
  matchList : List (ℕ × Match) := []
  nextMatchId : ℕ := 0

/-- The empty store (`InMemoryDB.__init__`). -/
def emptyDB : InMemoryDB := {}

/-- `InMemoryDB._match_exists_between` (storage.py lines 39–43): does any
stored match — active or not — pair these two users (in either slot order)? -/
def match_exists_between (db : InMemoryDB) (a b : User) : Bool :=
  (valuesA db.matchList).any (fun m =>
    (m.user_a.user_id == a.user_id && m.user_b.user_id == b.user_id) ||
    (m.user_a.user_id == b.user_id && m.user_b.user_id == a.user_id))

/-- `InMemoryDB.add_swipe` (storage.py lines 28–37): store the swipe first,
then, for a `"like"`, scan the whole swipe table (which now contains the
new swipe itself) for a reverse like; if one exists and no match is stored
for the pair, create and store exactly one new match and return it. -/
def add_swipe (db : InMemoryDB) (s : Swipe) : InMemoryDB × Option Match :=
  let db1 : InMemoryDB := { db with swipes := insertA db.swipes s.swipe_id s }
  if s.direction = "like" then
    if (valuesA db1.swipes).any (fun o =>
        o.from_user.user_id == s.to_user.user_id &&
        o.to_user.user_id == s.from_user.user_id &&
        o.direction == "like") then
      if match_exists_between db1 s.from_user s.to_user then
        (db1, none)
      else
        let m : Match := { match_id := db1.nextMatchId, user_a := s.from_user,
                           user_b := s.to_user, is_active := true }
        ({ db1 with matchList := insertA db1.matchList m.match_id m,
                    nextMatchId := db1.nextMatchId + 1 }, some m)
    else (db1, none)
  else (db1, none)

/-- `InMemoryDB.add_match` (storage.py lines 45–46): unconditional keyed
insertion, no duplicate-pair check. -/
def add_match (db : InMemoryDB) (m : Match) : InMemoryDB :=
  { db with matchList := insertA db.matchList m.match_id m }

/-- The store operations relevant to the match-per-pair invariant:
recording a swipe, or deactivating a stored match in place
(`Match.unmatch` on a stored match).  Deleting a match outright is not
among them. -/
inductive DBOp where
  | swipe (s : Swipe)
  | unmatch (id : ℕ)

/-- Effect of one operation on the store. -/
def DBOp.step (db : InMemoryDB) : DBOp → InMemoryDB
  | .swipe s => (add_swipe db s).1
  | .unmatch i =>
    { db with matchList := db.matchList.map (fun p => if p.1 = i then (p.1, p.2.unmatch) else p) }

/-- Run a sequence of store operations from the empty store. -/
def runOps (ops : List DBOp) : InMemoryDB :=
  ops.foldl DBOp.step emptyDB

/-- The distance contribution that enters the location term: `0` when either
location is absent. -/
noncomputable def distOpt : Option Location → Option Location → ℝ
  | some la, some lb => la.distance_km_to lb
  | _, _ => 0

/-- An explicit finite bound on `|score|`, built from the inputs only:
`20` for the gender term, `15 + |age_min| + |age_max| + |age|` for the age
term, the interest bonus itself, `10` for the completeness term,
`10 + (distance + |max_distance_km|) * 0.2` for the location term, and
`2 * |rand|` for the tie-breaker; `1` when a profile is missing. -/
noncomputable def scoreBound (today : PDate) (rand : ℝ) (a b : User) : ℝ :=
  match a.profile, b.profile with
  | some pa, some pb =>
      20
      + (15 + |(pa.preferences.age_min : ℝ)| + |(pa.preferences.age_max : ℝ)|
          + |(((Profile.age today pb).getD 0 : ℤ) : ℝ)|)
      + 5 * ((pa.preferences.interests.toFinset ∩ pb.preferences.interests.toFinset).card : ℝ)
      + 10
      + (10 + (distOpt pa.location pb.location + |(pa.preferences.max_distance_km : ℝ)|) * 0.2)
      + |rand| * 2
  | _, _ => 1

/-- The candidate obtained from `u` by giving it profile `pb` with its
interest list replaced — "otherwise identical" candidates differing only in
interests. -/
def withInterests (u : User) (pb : Profile) (ints : List String) : User :=
  { u with profile := some { pb with preferences := { pb.preferences with interests := ints } } }

/-- A fixed current date used by the concrete examples. -/
def d0 : PDate := ⟨2026, 10, 12⟩

/-- Viewer with an entirely default profile (default preferences:
ages 18–99, 100 km, no interests). -/
def vC3 : User := ⟨1, some {}⟩

/-- Candidate whose only profile datum is a birthdate in the current year,
so that the computed age is `0`. -/
def cC3 : User := ⟨2, some { birthdate := some ⟨2026, 1, 1⟩ }⟩

/-- Viewer of the spec's shared-interest example. -/
def vEx : User := ⟨1, some { preferences := { interests := ["hiking", "coffee"] } }⟩

/-- Candidate sharing both of the viewer's interests. -/
def cEx1 : User := ⟨2, some { preferences := { interests := ["hiking", "coffee"] } }⟩

/-- Otherwise-identical candidate sharing no interest. -/
def cEx2 : User := ⟨3, some { preferences := { interests := ["movies"] } }⟩

/-- Profile-less users for the `compute_matches` slicing example. -/
def w0 : User := ⟨0, none⟩

def w1 : User := ⟨1, none⟩

def w2 : User := ⟨2, none⟩

/-- A user liking themselves: the store processes this swipe, finds the
reverse like (the swipe itself, already stored) and creates a match pairing
the user with themselves. -/
def selfSwipe : Swipe := { swipe_id := 0, from_user := w1, to_user := w1, direction := "like" }

/-- Like from user 3 to user 2. -/
def sBA : Swipe := { swipe_id := 1, from_user := ⟨3, none⟩, to_user := ⟨2, none⟩, direction := "like" }

/-- Reciprocal like from user 2 to user 3. -/
def sAB : Swipe := { swipe_id := 2, from_user := ⟨2, none⟩, to_user := ⟨3, none⟩, direction := "like" }

/-- The match that the reciprocal pair `sBA`, `sAB` creates. -/
def mW : Match := { match_id := 0, user_a := ⟨2, none⟩, user_b := ⟨3, none⟩, is_active := true }

/-- The store after recording `sBA` (one one-sided like). -/
def dbW : InMemoryDB := (add_swipe emptyDB sBA).1

/-- At most one stored match per unordered pair of user ids, active or not. -/
def MatchInv (db : InMemoryDB) : Prop :=
  (∀ p ∈ db.matchList, p.1 < db.nextMatchId) ∧
  List.Pairwise (fun m1 m2 => ¬ m1.samePair m2) (valuesA db.matchList)

/-- Two distinct matches over the same unordered pair {1, 2}. -/
def mDup1 : Match := { match_id := 10, user_a := w1, user_b := w2, is_active := true }

def mDup2 : Match := { match_id := 11, user_a := w1, user_b := w2, is_active := true }

/-- Users with locations, for instantiating the score decomposition. -/
def uL1 : User := ⟨1, some { location := some ⟨0, 0⟩ }⟩

def uL2 : User := ⟨2, some { location := some ⟨1, 1⟩ }⟩

/-! ## Theorems -/

/-- C2: for every pair of users where either lacks a profile, `score`
returns exactly the sentinel `-1.0` (no other part of the computation
contributes). -/
theorem score_missing_profile_sentinel (today : PDate) (rand : ℝ) (a b : User)
    (h : a.profile = none ∨ b.profile = none) :
    score today rand a b = -1 := by
  rcases h with h | h
  · cases hb : b.profile <;> simp [score, h, hb]
  · cases ha : a.profile <;> simp [score, ha, h]

/-- Witness for C2 at two concrete profile-less users. -/
theorem score_missing_profile_sentinel_witness :
    ((⟨0, none⟩ : User).profile = none ∨ (⟨1, none⟩ : User).profile = none) ∧
    score d0 0 ⟨0, none⟩ ⟨1, none⟩ = -1 :=
  ⟨Or.inl rfl, score_missing_profile_sentinel d0 0 ⟨0, none⟩ ⟨1, none⟩ (Or.inl rfl)⟩

/-- C6: the distance between two locations is the flat-earth
`sqrt(dx² + dy²)` with `dx = (lat1-lat2)*111`, `dy = (lon1-lon2)*111`; the
location term of `score` subtracts `(distance - max_distance_km) * 0.2`
beyond the viewer's range and otherwise adds
`((max_distance_km - distance) / max(1, max_distance_km)) * 10`; and for
users with profiles, `score` is the sum of its five terms plus the
tie-breaker, the location term among them. -/
theorem distance_and_location_term :
    (∀ l1 l2 : Location, l1.distance_km_to l2 =
        Real.sqrt ((((l1.lat : ℝ) - (l2.lat : ℝ)) * 111) ^ 2 +
                   (((l1.lon : ℝ) - (l2.lon : ℝ)) * 111) ^ 2))
  ∧ (∀ (pref : Preferences) (la lb : Location),
      locationTerm pref (some la) (some lb) =
        if (pref.max_distance_km : ℝ) < la.distance_km_to lb then
          -((la.distance_km_to lb - (pref.max_distance_km : ℝ)) * 0.2)
        else
          (((pref.max_distance_km : ℝ) - la.distance_km_to lb) /
             max 1 (pref.max_distance_km : ℝ)) * 10)
  ∧ (∀ (today : PDate) (rand : ℝ) (a b : User) (pa pb : Profile),
      a.profile = some pa → b.profile = some pb →
      score today rand a b =
        genderTerm pa.preferences pb.gender
          + ageTerm pa.preferences (Profile.age today pb)
          + interestTerm pa.preferences pb.preferences
          + completenessTerm pb
          + locationTerm pa.preferences pa.location pb.location
          + rand * 2) := by
  refine ⟨?_, ?_, ?_⟩
  · intro l1 l2
    unfold Location.distance_km_to
    ring_nf
  · intro pref la lb
    simp only [locationTerm, gt_iff_lt]
    by_cases hd : (pref.max_distance_km : ℝ) < la.distance_km_to lb
    · rw [if_pos hd, if_pos hd]
    · rw [if_neg hd, if_neg hd]
      have h0 : (0 : ℝ) ≤ la.distance_km_to lb := Real.sqrt_nonneg _
      have h1 : ((max 1 pref.max_distance_km : ℤ) : ℝ) = max 1 (pref.max_distance_km : ℝ) := by
        push_cast
        rfl
      rw [h1]
      have h2 : (0 : ℝ) < max 1 (pref.max_distance_km : ℝ) :=
        lt_of_lt_of_le one_pos (le_max_left _ _)
      have h3 : (0 : ℝ) ≤ ((pref.max_distance_km : ℝ) - la.distance_km_to lb) /
          max 1 (pref.max_distance_km : ℝ) :=
        div_nonneg (by linarith [not_lt.mp hd]) h2.le
      rw [max_eq_right h3]
  · intro today rand a b pa pb ha hb
    cases a with
    | mk ida pa' =>
      cases b with
      | mk idb pb' =>
        simp only [User.profile] at ha hb
        subst ha
        subst hb
        rfl

/-- Witness for the score decomposition of C6 at two concrete users with
locations. -/
theorem distance_and_location_term_witness :
    uL1.profile = some { location := some ⟨0, 0⟩ } ∧
    uL2.profile = some { location := some ⟨1, 1⟩ } ∧
    score d0 0 uL1 uL2 =
      genderTerm ({} : Preferences) none
        + ageTerm ({} : Preferences) (Profile.age d0 { location := some ⟨1, 1⟩ })
        + interestTerm ({} : Preferences) ({} : Preferences)
        + completenessTerm { location := some ⟨1, 1⟩ }
        + locationTerm ({} : Preferences) (some ⟨0, 0⟩) (some ⟨1, 1⟩)
        + 0 * 2 :=
  ⟨rfl, rfl, distance_and_location_term.2.2 d0 0 uL1 uL2 _ _ rfl rfl⟩

/-- C3 (amended): the age term is skipped when the candidate has no
birthdate *or* when the computed age is `0` (Python `if b_age:` treats the
integer 0 as falsy); for a nonzero computed age and well-formed preferences
(`age_min ≤ age_max`, the data-model invariant), the term adds `15` inside
the inclusive range and subtracts the linear shortfall outside it; the age
itself is `currentYear - birthYear` minus 1 when today's (month, day)
precedes the birthdate's. -/
theorem age_term_values (pref : Preferences) (n : ℤ) (hn : n ≠ 0)
    (hrange : pref.age_min ≤ pref.age_max) :
    ageTerm pref none = 0 ∧
    ageTerm pref (some 0) = 0 ∧
    (pref.age_min ≤ n ∧ n ≤ pref.age_max → ageTerm pref (some n) = 15) ∧
    (n < pref.age_min → ageTerm pref (some n) = -((pref.age_min : ℝ) - (n : ℝ))) ∧
    (pref.age_max < n → ageTerm pref (some n) = -((n : ℝ) - (pref.age_max : ℝ))) ∧
    (∀ today bd : PDate, age_from_birthdate today bd =
      today.year - bd.year -
        (if today.month < bd.month ∨ (today.month = bd.month ∧ today.day < bd.day)
         then 1 else 0)) := by
  refine ⟨rfl, by simp [ageTerm], ?_, ?_, ?_, fun _ _ => rfl⟩
  · intro h
    simp [ageTerm, hn, Preferences.matches_age, h.1, h.2]
  · intro hlt
    have hm : ¬pref.matches_age n := fun hc => absurd hc.1 (not_le.mpr hlt)
    simp [ageTerm, hn, hm, hlt]
  · intro hgt
    have hm : ¬pref.matches_age n := fun hc => absurd hc.2 (not_le.mpr hgt)
    have hnl : ¬n < pref.age_min := not_lt.mpr (le_trans hrange hgt.le)
    simp [ageTerm, hn, hm, hnl, hgt]

/-- Witness for the amended C3 at `n = 25` against the default preferences. -/
theorem age_term_values_witness :
    (25 : ℤ) ≠ 0 ∧ ({} : Preferences).age_min ≤ ({} : Preferences).age_max ∧
    (ageTerm {} none = 0 ∧
     ageTerm {} (some 0) = 0 ∧
     (({} : Preferences).age_min ≤ 25 ∧ (25 : ℤ) ≤ ({} : Preferences).age_max →
       ageTerm {} (some 25) = 15) ∧
     ((25 : ℤ) < ({} : Preferences).age_min →
       ageTerm {} (some 25) = -((({} : Preferences).age_min : ℝ) - (25 : ℝ))) ∧
     (({} : Preferences).age_max < 25 →
       ageTerm {} (some 25) = -(((25 : ℤ) : ℝ) - (({} : Preferences).age_max : ℝ))) ∧
     (∀ today bd : PDate, age_from_birthdate today bd =
       today.year - bd.year -
         (if today.month < bd.month ∨ (today.month = bd.month ∧ today.day < bd.day)
          then 1 else 0))) :=
  ⟨by decide, by decide, age_term_values {} 25 (by decide) (by decide)⟩

/-- Counterexample to C3 as stated: a candidate whose computed age is `0`
(born earlier in the current year) does *not* receive the claimed penalty
`age_min - age = 18`; the age term contributes `0` and the whole score at
tie-breaker `0` is `-42/5 = -8.4`, not `-8.4 - 18`. -/
theorem age_zero_counterexample :
    Profile.age d0 { birthdate := some ⟨2026, 1, 1⟩ } = some 0 ∧
    ageTerm ({} : Preferences) (some 0) = 0 ∧
    (0 : ℝ) ≠ -((18 : ℝ) - 0) ∧
    score d0 0 vC3 cC3 = -42/5 := by
  refine ⟨by decide, by simp [ageTerm], by norm_num, ?_⟩
  have hage : ageTerm ({} : Preferences) (Profile.age d0 { birthdate := some ⟨2026, 1, 1⟩ }) = 0 := by
    have h0 : Profile.age d0 { birthdate := some ⟨2026, 1, 1⟩ } = some 0 := by decide
    rw [h0]
    simp [ageTerm]
  show score d0 0 vC3 cC3 = -42/5
  simp only [vC3, cC3, score, genderTerm, interestTerm, completenessTerm,
    locationTerm, Profile.complete_percentage, hage]
  norm_num

/-- C7: with the tie-breaker pinned to 0 and all else equal, `score` is
monotonically non-decreasing in the number of shared interests (each shared
tag is worth exactly `5.0`, both sides treated as sets); and in the spec's
example the doubly-sharing candidate scores at least `10.0` above the
non-sharing one. -/
theorem shared_interest_monotone (today : PDate) (a : User) (pa : Profile)
    (ha : a.profile = some pa) (b : User) (pb : Profile) (ints1 ints2 : List String)
    (h : (pa.preferences.interests.toFinset ∩ ints2.toFinset).card ≤
         (pa.preferences.interests.toFinset ∩ ints1.toFinset).card) :
    score today 0 a (withInterests b pb ints2) ≤ score today 0 a (withInterests b pb ints1) ∧
    score d0 0 vEx cEx2 + 10 ≤ score d0 0 vEx cEx1 := by
  constructor
  · obtain ⟨ida, aprof⟩ := a
    simp only [User.profile] at ha
    subst ha
    simp only [score, withInterests, interestTerm]
    have hc : ((pa.preferences.interests.toFinset ∩ ints2.toFinset).card : ℝ) ≤
        ((pa.preferences.interests.toFinset ∩ ints1.toFinset).card : ℝ) :=
      Nat.cast_le.mpr h
    gcongr
    · exact le_of_eq rfl
    · exact le_of_eq rfl
  · have h1 : score d0 0 vEx cEx1 = 0 := by
      simp only [vEx, cEx1, d0, score, genderTerm, ageTerm, interestTerm, completenessTerm,
        locationTerm, Profile.age, Profile.complete_percentage]
      have hc : (((["hiking", "coffee"] : List String).toFinset ∩
          (["hiking", "coffee"] : List String).toFinset).card : ℕ) = 2 := by decide
      rw [hc]
      norm_num
    have h2 : score d0 0 vEx cEx2 = -10 := by
      simp only [vEx, cEx2, d0, score, genderTerm, ageTerm, interestTerm, completenessTerm,
        locationTerm, Profile.age, Profile.complete_percentage]
      have hc : (((["hiking", "coffee"] : List String).toFinset ∩
          (["movies"] : List String).toFinset).card : ℕ) = 0 := by decide
      rw [hc]
      norm_num
    rw [h1, h2]
    norm_num

/-- Witness for C7: viewer with interests {hiking, coffee}; a candidate
sharing one interest versus one sharing none. -/
theorem shared_interest_monotone_witness :
    vEx.profile = some { preferences := { interests := ["hiking", "coffee"] } } ∧
    ((["hiking", "coffee"] : List String).toFinset ∩ ([] : List String).toFinset).card ≤
      ((["hiking", "coffee"] : List String).toFinset ∩
        (["hiking"] : List String).toFinset).card ∧
    (score d0 0 vEx (withInterests ⟨2, none⟩ {} []) ≤
       score d0 0 vEx (withInterests ⟨2, none⟩ {} ["hiking"]) ∧
     score d0 0 vEx cEx2 + 10 ≤ score d0 0 vEx cEx1) :=
  ⟨rfl, by decide,
   shared_interest_monotone d0 vEx _ rfl ⟨2, none⟩ {} ["hiking"] [] (by decide)⟩

theorem valuesA_append (l1 l2 : List (ℕ × α)) :
    valuesA (l1 ++ l2) = valuesA l1 ++ valuesA l2 :=
  List.map_append _ _ _

/-- Inserting under a key absent from the table appends. -/
theorem insertA_fresh (l : List (ℕ × α)) (k : ℕ) (v : α) (h : ∀ p ∈ l, p.1 ≠ k) :
    insertA l k v = l ++ [(k, v)] := by
  have hany : l.any (fun p => p.1 == k) = false := by
    rw [List.any_eq_false]
    intro p hp
    simpa using h p hp
  simp [insertA, hany]

/-- Case analysis of `add_swipe`: either the match table and the id counter
are untouched, or (reverse like found, no match stored for the pair) one
fresh match over the swipe's endpoints is inserted and the counter bumped. -/
theorem add_swipe_cases (db : InMemoryDB) (s : Swipe) :
    ((add_swipe db s).1.matchList = db.matchList ∧
     (add_swipe db s).1.nextMatchId = db.nextMatchId) ∨
    (match_exists_between { db with swipes := insertA db.swipes s.swipe_id s }
        s.from_user s.to_user = false ∧
     (add_swipe db s).1.matchList = insertA db.matchList db.nextMatchId
        { match_id := db.nextMatchId, user_a := s.from_user, user_b := s.to_user,
          is_active := true } ∧
     (add_swipe db s).1.nextMatchId = db.nextMatchId + 1) := by
  unfold add_swipe
  dsimp only
  split
  · split
    · split
      · exact Or.inl ⟨rfl, rfl⟩
      · rename_i hg
        exact Or.inr ⟨Bool.not_eq_true _ ▸ hg, rfl, rfl⟩
    · exact Or.inl ⟨rfl, rfl⟩
  · exact Or.inl ⟨rfl, rfl⟩

/-- A false `_match_exists_between` answer means no stored match pairs the
two users, in either slot order. -/
theorem match_exists_between_false {db : InMemoryDB} {a b : User}
    (h : match_exists_between db a b = false) :
    ∀ m ∈ valuesA db.matchList,
      ¬((m.user_a.user_id = a.user_id ∧ m.user_b.user_id = b.user_id) ∨
        (m.user_a.user_id = b.user_id ∧ m.user_b.user_id = a.user_id)) := by
  intro m hm
  unfold match_exists_between at h
  rw [List.any_eq_false] at h
  have := h m hm
  simpa using this

theorem matchInv_step (db : InMemoryDB) (op : DBOp) (h : MatchInv db) :
    MatchInv (DBOp.step db op) := by
  cases op with
  | swipe s =>
    show MatchInv (add_swipe db s).1
    rcases add_swipe_cases db s with ⟨hm, hn⟩ | ⟨hg, hm, hn⟩
    · refine ⟨fun p hp => ?_, ?_⟩
      · rw [hn]
        exact h.1 p (hm ▸ hp)
      · rw [hm]
        exact h.2
    · have hfresh : ∀ p ∈ db.matchList, p.1 ≠ db.nextMatchId :=
        fun p hp => Nat.ne_of_lt (h.1 p hp)
      have hins := insertA_fresh db.matchList db.nextMatchId
        { match_id := db.nextMatchId, user_a := s.from_user, user_b := s.to_user,
          is_active := true } hfresh
      refine ⟨fun p hp => ?_, ?_⟩
      · rw [hm, hins] at hp
        rw [hn]
        rcases List.mem_append.mp hp with hp | hp
        · exact Nat.lt_succ_of_lt (h.1 p hp)
        · rw [List.mem_singleton.mp hp]
          exact Nat.lt_succ_self _
      · rw [hm, hins, valuesA_append]
        rw [List.pairwise_append]
        refine ⟨h.2, List.pairwise_singleton _ _, ?_⟩
        intro x hx y hy
        have hy' : y = ⟨db.nextMatchId, s.from_user, s.to_user, true⟩ := by
          simpa [valuesA] using hy
        subst hy'
        have := match_exists_between_false hg x (by simpa [valuesA] using hx)
        simpa [Match.samePair] using this
  | unmatch i =>
    refine ⟨fun p hp => ?_, ?_⟩
    · show p.1 < db.nextMatchId
      simp only [DBOp.step] at hp
      rcases List.mem_map.mp hp with ⟨q, hq, rfl⟩
      have he : (if q.1 = i then (q.1, q.2.unmatch) else q).1 = q.1 := by
        split <;> rfl
      rw [he]
      exact h.1 q hq
    · simp only [DBOp.step]
      unfold valuesA
      rw [List.map_map, List.pairwise_map]
      have h2 := h.2
      unfold valuesA at h2
      rw [List.pairwise_map] at h2
      refine h2.imp ?_
      intro a b hab
      intro hc
      apply hab
      have ea : (Prod.snd ((fun p => if p.1 = i then (p.1, p.2.unmatch) else p) a)).samePair
          (Prod.snd ((fun p => if p.1 = i then (p.1, p.2.unmatch) else p) b)) ↔
          a.2.samePair b.2 := by
        dsimp only
        unfold Match.unmatch Match.samePair
        split <;> split <;> exact Iff.rfl
      exact ea.mp hc

theorem matchInv_foldl (db : InMemoryDB) (h : MatchInv db) (ops : List DBOp) :
    MatchInv (ops.foldl DBOp.step db) := by
  induction ops generalizing db with
  | nil => exact h
  | cons op ops ih => exact ih _ (matchInv_step db op h)

theorem matchInv_empty : MatchInv emptyDB := by
  refine ⟨?_, ?_⟩
  · intro p hp
    simp [emptyDB] at hp
  · simp [emptyDB, valuesA]

/-- C1: after any sequence of store operations made of `record_swipe` calls
and in-place deactivations (no match ever deleted), the match table holds
at most one match per unordered pair of user ids — the de-duplication check
of `add_swipe` scans all stored matches regardless of their active flag, so
deactivating a match never allows a second one for the same pair. -/
theorem at_most_one_match_per_pair (ops : List DBOp) :
    List.Pairwise (fun m1 m2 => ¬ m1.samePair m2) (valuesA (runOps ops).matchList) :=
  (matchInv_foldl emptyDB matchInv_empty ops).2

/-- Counterexample to C8 as stated: a single `"like"` swipe from a user to
themselves is immediately reciprocated by itself (the scan over the swipe
table sees the swipe just stored), so `add_swipe` returns a match whose two
user slots carry the *same* user id. -/
theorem self_like_self_match_counterexample :
    ((add_swipe emptyDB selfSwipe).2.map (fun m => (m.user_a.user_id, m.user_b.user_id))) =
      some (1, 1) := by decide

/-- C8 (amended): every match returned by `add_swipe` pairs the swipe's two
endpoints, so whenever the swipe's actor and target have different user
ids, the created match references two distinct users; a degenerate
self-like is the only way to obtain a self-match. -/
theorem add_swipe_distinct_users (db : InMemoryDB) (s : Swipe) (m : Match)
    (hne : s.from_user.user_id ≠ s.to_user.user_id)
    (hm : (add_swipe db s).2 = some m) :
    m.user_a.user_id ≠ m.user_b.user_id := by
  unfold add_swipe at hm
  dsimp only at hm
  split at hm
  · split at hm
    · split at hm
      · exact absurd hm (by simp)
      · rw [Option.some.injEq] at hm
        rw [← hm]
        exact hne
    · exact absurd hm (by simp)
  · exact absurd hm (by simp)

/-- Witness for the amended C8: recording the reciprocal of a stored like
between the distinct users 2 and 3 returns the match `mW`, which indeed
pairs two distinct ids. -/
theorem add_swipe_distinct_users_witness :
    sAB.from_user.user_id ≠ sAB.to_user.user_id ∧
    (add_swipe dbW sAB).2 = some mW ∧
    mW.user_a.user_id ≠ mW.user_b.user_id :=
  ⟨by decide, by decide, add_swipe_distinct_users dbW sAB mW (by decide) (by decide)⟩

/-- C10: `add_match` stores the given match unconditionally under its
`match_id`, with no duplicate-pair check — after two `add_match` calls with
distinct ids over the same unordered pair, the store holds two matches for
that pair (a state `add_swipe` alone can never produce). -/
theorem add_match_unconditional :
    (∀ (db : InMemoryDB) (m : Match), m ∈ valuesA (add_match db m).matchList) ∧
    valuesA (add_match (add_match emptyDB mDup1) mDup2).matchList = [mDup1, mDup2] ∧
    mDup1.samePair mDup2 ∧ mDup1.match_id ≠ mDup2.match_id := by
  refine ⟨?_, by decide, by decide, by decide⟩
  intro db m
  show m ∈ valuesA (insertA db.matchList m.match_id m)
  unfold insertA
  split
  · rename_i hany
    rw [List.any_eq_true] at hany
    obtain ⟨p, hp, hk⟩ := hany
    rw [beq_iff_eq] at hk
    unfold valuesA
    rw [List.map_map]
    refine List.mem_map.mpr ⟨p, hp, ?_⟩
    simp [hk]
  · unfold valuesA
    rw [List.map_append]
    exact List.mem_append.mpr (Or.inr (by simp))

/-- The length of a `compute_matches` result, via Python slice semantics:
`min` of the slice amount and the number of eligible candidates. -/
theorem length_compute_matches (today : PDate) (rand : ℕ → ℝ) (user : User)
    (cands : List User) (k : ℤ) :
    (compute_matches today rand user cands k).length =
      min (if 0 ≤ k then k.toNat else (((eligibleCands user cands).length : ℤ) + k).toNat)
          (eligibleCands user cands).length := by
  have hlen : (List.insertionSort scoreGe (scoredList today rand user cands)).length
      = (eligibleCands user cands).length := by
    rw [List.length_insertionSort]
    unfold scoredList
    rw [List.length_map, List.enum_length]
  unfold compute_matches pySlice
  rw [List.length_map]
  split
  · rw [List.length_take, hlen]
  · rw [List.length_take, hlen]

/-- C4 (amended): `top_k` defaults to 10; `top_k = 0` yields the empty
sequence; but a *negative* `top_k` is Python slice `scored[:top_k]`, which
drops the last `|top_k|` scored candidates — the result has length
`max(0, eligible + top_k)` and is empty only when `|top_k|` is at least the
number of eligible candidates. -/
theorem compute_matches_top_k (today : PDate) (rand : ℕ → ℝ) (user : User)
    (cands : List User) (k : ℤ) (hk : k < 0) :
    compute_matches today rand user cands 0 = [] ∧
    compute_matches today rand user cands = compute_matches today rand user cands 10 ∧
    (compute_matches today rand user cands k).length =
      (((eligibleCands user cands).length : ℤ) + k).toNat := by
  refine ⟨?_, rfl, ?_⟩
  · unfold compute_matches pySlice
    simp
  · rw [length_compute_matches, if_neg (not_le.mpr hk)]
    omega

/-- Witness for the amended C4 at `top_k = -1` with two eligible
candidates. -/
theorem compute_matches_top_k_witness :
    (-1 : ℤ) < 0 ∧
    (compute_matches d0 (fun _ => 0) w0 [w1, w2] 0 = [] ∧
     compute_matches d0 (fun _ => 0) w0 [w1, w2] =
       compute_matches d0 (fun _ => 0) w0 [w1, w2] 10 ∧
     (compute_matches d0 (fun _ => 0) w0 [w1, w2] (-1)).length =
       (((eligibleCands w0 [w1, w2]).length : ℤ) + (-1)).toNat) :=
  ⟨by decide, compute_matches_top_k d0 (fun _ => 0) w0 [w1, w2] (-1) (by decide)⟩

/-- Counterexample to C4 as stated: with two eligible candidates and
`top_k = -1 ≤ 0`, `compute_matches` returns one user, not the empty
sequence (`scored[:-1]` drops only the last element). -/
theorem negative_top_k_counterexample :
    (compute_matches d0 (fun _ => 0) w0 [w1, w2] (-1)).length = 1 ∧
    compute_matches d0 (fun _ => 0) w0 [w1, w2] (-1) ≠ [] := by
  have he : (eligibleCands w0 [w1, w2]).length = 2 := by decide
  have h1 : (compute_matches d0 (fun _ => 0) w0 [w1, w2] (-1)).length = 1 := by
    rw [length_compute_matches, he]
    decide
  refine ⟨h1, fun hc => ?_⟩
  rw [hc] at h1
  exact absurd h1 (by decide)

/-- C5: for positive `top_k`, `compute_matches` never returns the viewer
(id equality, even if the viewer is among the candidates), the underlying
sliced scored list is sorted by descending score and the result is exactly
its user component, and the result length is at most `top_k` and at most
the candidate count. -/
theorem compute_matches_ranked (today : PDate) (rand : ℕ → ℝ) (user : User)
    (cands : List User) (k : ℤ) (hk : 0 < k) :
    (∀ u ∈ compute_matches today rand user cands k, u.user_id ≠ user.user_id) ∧
    List.Pairwise scoreGe
      (pySlice (List.insertionSort scoreGe (scoredList today rand user cands)) k) ∧
    compute_matches today rand user cands k =
      (pySlice (List.insertionSort scoreGe (scoredList today rand user cands)) k).map
        Prod.snd ∧
    (compute_matches today rand user cands k).length ≤ k.toNat ∧
    (compute_matches today rand user cands k).length ≤ cands.length := by
  refine ⟨?_, ?_, rfl, ?_, ?_⟩
  · intro u hu
    unfold compute_matches at hu
    rcases List.mem_map.mp hu with ⟨pr, hpr, rfl⟩
    have h2 : pr ∈ List.insertionSort scoreGe (scoredList today rand user cands) := by
      unfold pySlice at hpr
      split at hpr <;> exact List.take_subset _ _ hpr
    have h3 : pr ∈ scoredList today rand user cands :=
      (List.mem_insertionSort scoreGe).mp h2
    unfold scoredList at h3
    rcases List.mem_map.mp h3 with ⟨ic, hic, heq⟩
    have h4 : ic.2 ∈ eligibleCands user cands :=
      List.getElem?_mem (List.mem_enum_iff_getElem?.mp hic)
    have h5 := List.mem_filter.mp h4
    rw [← heq]
    simpa using h5.2
  · have hp : List.Pairwise scoreGe
        (List.insertionSort scoreGe (scoredList today rand user cands)) :=
      List.sorted_insertionSort scoreGe (scoredList today rand user cands)
    unfold pySlice
    split <;> exact hp.sublist (List.take_sublist _ _)
  · rw [length_compute_matches, if_pos hk.le]
    exact min_le_left _ _
  · rw [length_compute_matches]
    exact le_trans (min_le_right _ _) (List.length_filter_le _ _)

/-- Witness for C5 at `top_k = 1` with one eligible candidate. -/
theorem compute_matches_ranked_witness :
    (0 : ℤ) < 1 ∧
    ((∀ u ∈ compute_matches d0 (fun _ => 0) w0 [w1] 1, u.user_id ≠ w0.user_id) ∧
     List.Pairwise scoreGe
       (pySlice (List.insertionSort scoreGe (scoredList d0 (fun _ => 0) w0 [w1])) 1) ∧
     compute_matches d0 (fun _ => 0) w0 [w1] 1 =
       (pySlice (List.insertionSort scoreGe (scoredList d0 (fun _ => 0) w0 [w1])) 1).map
         Prod.snd ∧
     (compute_matches d0 (fun _ => 0) w0 [w1] 1).length ≤ (1 : ℤ).toNat ∧
     (compute_matches d0 (fun _ => 0) w0 [w1] 1).length ≤ [w1].length) :=
  ⟨by decide, compute_matches_ranked d0 (fun _ => 0) w0 [w1] 1 (by decide)⟩

theorem abs_genderTerm_le (pref : Preferences) (g : Option Gender) :
    |genderTerm pref g| ≤ 20 := by
  cases g with
  | none =>
    show |(-10 : ℝ)| ≤ 20
    rw [abs_le]
    constructor <;> norm_num
  | some g =>
    show |if g ∈ pref.gender_preference then (20 : ℝ) else -10| ≤ 20
    split <;> (rw [abs_le]; constructor <;> norm_num)

theorem abs_ageTerm_le (pref : Preferences) (age : Option ℤ) :
    |ageTerm pref age| ≤
      15 + |(pref.age_min : ℝ)| + |(pref.age_max : ℝ)| + |((age.getD 0 : ℤ) : ℝ)| := by
  have hmin := abs_nonneg ((pref.age_min : ℝ))
  have hmax := abs_nonneg ((pref.age_max : ℝ))
  cases age with
  | none =>
    show |(0 : ℝ)| ≤ 15 + |(pref.age_min : ℝ)| + |(pref.age_max : ℝ)| + |(((0 : ℤ) : ℝ))|
    rw [abs_zero]
    positivity
  | some n =>
    have hn := abs_nonneg ((n : ℝ))
    show |if n = 0 then (0 : ℝ)
          else if pref.matches_age n then 15
          else if n < pref.age_min then -((pref.age_min : ℝ) - (n : ℝ))
          else if pref.age_max < n then -((n : ℝ) - (pref.age_max : ℝ))
          else 0| ≤ 15 + |(pref.age_min : ℝ)| + |(pref.age_max : ℝ)| + |(n : ℝ)|
    have hsub1 : |(pref.age_min : ℝ) - (n : ℝ)| ≤ |(pref.age_min : ℝ)| + |(n : ℝ)| := by
      rw [sub_eq_add_neg]
      exact (abs_add _ _).trans (by rw [abs_neg])
    have hsub2 : |(n : ℝ) - (pref.age_max : ℝ)| ≤ |(n : ℝ)| + |(pref.age_max : ℝ)| := by
      rw [sub_eq_add_neg]
      exact (abs_add _ _).trans (by rw [abs_neg])
    split_ifs with h1 h2 h3 h4
    · rw [abs_zero]
      linarith
    · rw [show |(15 : ℝ)| = 15 from abs_of_nonneg (by norm_num)]
      linarith
    · rw [abs_neg]
      linarith
    · rw [abs_neg]
      linarith
    · rw [abs_zero]
      linarith

theorem complete_percentage_le (p : Profile) : p.complete_percentage ≤ 100 := by
  unfold Profile.complete_percentage
  split_ifs <;> decide

theorem abs_completenessTerm_le (p : Profile) : |completenessTerm p| ≤ 10 := by
  unfold completenessTerm
  rw [abs_of_nonneg (by positivity)]
  have h : ((p.complete_percentage : ℝ)) ≤ 100 := by
    exact_mod_cast complete_percentage_le p
  linarith

theorem abs_locationTerm_le (pref : Preferences) (la lb : Option Location) :
    |locationTerm pref la lb| ≤ 10 + (distOpt la lb + |(pref.max_distance_km : ℝ)|) * 0.2 := by
  have hM := abs_nonneg ((pref.max_distance_km : ℝ))
  cases la with
  | none =>
    cases lb <;>
      · show |(0 : ℝ)| ≤ 10 + ((0 : ℝ) + _) * 0.2
        rw [abs_zero]
        linarith
  | some la =>
    cases lb with
    | none =>
      show |(0 : ℝ)| ≤ 10 + ((0 : ℝ) + _) * 0.2
      rw [abs_zero]
      linarith
    | some lb =>
      have hd : (0 : ℝ) ≤ la.distance_km_to lb := Real.sqrt_nonneg _
      have hMle : -((pref.max_distance_km : ℝ)) ≤ |(pref.max_distance_km : ℝ)| :=
        neg_le_abs _
      show |locationTerm pref (some la) (some lb)| ≤
        10 + (la.distance_km_to lb + |(pref.max_distance_km : ℝ)|) * 0.2
      unfold locationTerm
      dsimp only
      split_ifs with h1
      · rw [abs_neg, abs_of_nonneg (by nlinarith)]
        nlinarith
      · have hcast : ((max 1 pref.max_distance_km : ℤ) : ℝ) =
            max 1 (pref.max_distance_km : ℝ) := by
          push_cast
          rfl
        rw [hcast]
        have hpos : (0 : ℝ) < max 1 (pref.max_distance_km : ℝ) :=
          lt_of_lt_of_le one_pos (le_max_left _ _)
        have hr1 : ((pref.max_distance_km : ℝ) - la.distance_km_to lb) /
            max 1 (pref.max_distance_km : ℝ) ≤ 1 := by
          rw [div_le_one hpos]
          have : (pref.max_distance_km : ℝ) ≤ max 1 (pref.max_distance_km : ℝ) :=
            le_max_right _ _
          linarith
        have hmax1 : max 0 (((pref.max_distance_km : ℝ) - la.distance_km_to lb) /
            max 1 (pref.max_distance_km : ℝ)) ≤ 1 :=
          max_le (by norm_num) hr1
        have hmax0 : (0 : ℝ) ≤ max 0 (((pref.max_distance_km : ℝ) - la.distance_km_to lb) /
            max 1 (pref.max_distance_km : ℝ)) :=
          le_max_left _ _
        rw [abs_of_nonneg (by positivity)]
        nlinarith

/-- C9: for all (exact-number) inputs `score` is a well-defined real number
with an explicit finite bound — in particular no NaN or infinity can arise —
and the only division it performs has the divisor `max(1, max_distance_km)`,
which is never zero (this is the guard that makes `max_distance_km = 0`
safe). -/
theorem score_finite_bound :
    (∀ (today : PDate) (rand : ℝ) (a b : User),
      |score today rand a b| ≤ scoreBound today rand a b) ∧
    (∀ pref : Preferences, ((max 1 pref.max_distance_km : ℤ) : ℝ) ≠ 0) := by
  constructor
  · intro today rand a b
    obtain ⟨ida, pa⟩ := a
    obtain ⟨idb, pb⟩ := b
    cases pa with
    | none =>
      cases pb with
      | none =>
        show |(-1 : ℝ)| ≤ 1
        rw [abs_le]
        constructor <;> norm_num
      | some pb =>
        show |(-1 : ℝ)| ≤ 1
        rw [abs_le]
        constructor <;> norm_num
    | some pa =>
      cases pb with
      | none =>
        show |(-1 : ℝ)| ≤ 1
        rw [abs_le]
        constructor <;> norm_num
      | some pb =>
        show |genderTerm pa.preferences pb.gender
            + ageTerm pa.preferences (Profile.age today pb)
            + interestTerm pa.preferences pb.preferences
            + completenessTerm pb
            + locationTerm pa.preferences pa.location pb.location
            + rand * 2| ≤
          20
          + (15 + |(pa.preferences.age_min : ℝ)| + |(pa.preferences.age_max : ℝ)|
              + |(((Profile.age today pb).getD 0 : ℤ) : ℝ)|)
          + 5 * ((pa.preferences.interests.toFinset ∩
              pb.preferences.interests.toFinset).card : ℝ)
          + 10
          + (10 + (distOpt pa.location pb.location
              + |(pa.preferences.max_distance_km : ℝ)|) * 0.2)
          + |rand| * 2
        have h1 := abs_genderTerm_le pa.preferences pb.gender
        have h2 := abs_ageTerm_le pa.preferences (Profile.age today pb)
        have h3 : |interestTerm pa.preferences pb.preferences| ≤
            5 * ((pa.preferences.interests.toFinset ∩
              pb.preferences.interests.toFinset).card : ℝ) := by
          unfold interestTerm
          rw [abs_of_nonneg (by positivity)]
        have h4 := abs_completenessTerm_le pb
        have h5 := abs_locationTerm_le pa.preferences pa.location pb.location
        have h6 : |rand * 2| = |rand| * 2 := by
          rw [abs_mul]
          norm_num
        have ha1 := abs_add
          (genderTerm pa.preferences pb.gender
            + ageTerm pa.preferences (Profile.age today pb)
            + interestTerm pa.preferences pb.preferences
            + completenessTerm pb
            + locationTerm pa.preferences pa.location pb.location) (rand * 2)
        have ha2 := abs_add
          (genderTerm pa.preferences pb.gender
            + ageTerm pa.preferences (Profile.age today pb)
            + interestTerm pa.preferences pb.preferences
            + completenessTerm pb) (locationTerm pa.preferences pa.location pb.location)
        have ha3 := abs_add
          (genderTerm pa.preferences pb.gender
            + ageTerm pa.preferences (Profile.age today pb)
            + interestTerm pa.preferences pb.preferences) (completenessTerm pb)
        have ha4 := abs_add
          (genderTerm pa.preferences pb.gender
            + ageTerm pa.preferences (Profile.age today pb))
          (interestTerm pa.preferences pb.preferences)
        have ha5 := abs_add (genderTerm pa.preferences pb.gender)
          (ageTerm pa.preferences (Profile.age today pb))
        linarith
  · intro pref
    have h : (0 : ℤ) < max 1 pref.max_distance_km :=
      lt_of_lt_of_le one_pos (le_max_left _ _)
    have : (0 : ℝ) < ((max 1 pref.max_distance_km : ℤ) : ℝ) := by
      exact_mod_cast h
    exact ne_of_gt this
